import Mathlib

/-!
Shallow embedding of the moonlight repository's build scripts
(build.py, bake.py, Bakefile.py) and of the task/recipe orchestration
engine they drive, together with proofs of the specified properties.

Conventions:
- Python strings are Lean String; pathlib.Path values are modelled as
  slash-separated strings.
- shlex.split of a process-environment value is modelled by passing the
  token list directly (field CFLAGS / LDFLAGS of PEnv); shlex.join of a
  token list is modelled by joinTokens.
- os.environ is modelled by PEnv: an optional value per variable read by
  build.py (os.environ.get k d = (field k).getD d).
-/

namespace Build

/-- Split a character list on the slash character, mirroring
str.split("/") of Python (an empty string yields one empty group). -/
def splitSlash : List Char → List (List Char)
  | [] => [[]]
  | c :: cs =>
    let r := splitSlash cs
    if c = '/' then [] :: r
    else
      match r with
      | [] => [[c]]
      | g :: gs => (c :: g) :: gs

/-- Rejoin character-list groups with slashes. -/
def joinSlash : List (List Char) → List Char
  | [] => []
  | [g] => g
  | g :: gs => g ++ '/' :: joinSlash gs

/-- The final path component of a slash-separated path, as pathlib's
Path.name. -/
def pathName (p : String) : String :=
  ⟨(splitSlash p.data).getLastD []⟩

/-- pathlib's with_suffix("") applied to the final component's
characters: the suffix starts at the last dot, provided that dot is
neither the first nor the last character of the name (CPython
PurePath.suffix). -/
def nameNoSuffix (name : List Char) : List Char :=
  match name.reverse.findIdx? (fun c => c = '.') with
  | none => name
  | some e =>
    let i := name.length - 1 - e
    if 0 < i ∧ i + 1 < name.length then name.take i else name

/-- Path.with_suffix("") on a slash-separated path: strip the extension
of the final component only. -/
def withSuffixEmpty (p : String) : String :=
  let parts := splitSlash p.data
  ⟨joinSlash (parts.dropLast ++ [nameNoSuffix (parts.getLastD [])])⟩

/-- pathlib's / operator on string paths: a second absolute operand
replaces everything accumulated so far; Path("") behaves as the empty
anchor (its string form contributes no component). -/
def pyPathJoin (a b : String) : String :=
  match b.data with
  | '/' :: _ => b
  | _ =>
    match a.data with
    | [] => b
    | _ => if a.data.getLast? = some '/' then a ++ b else a ++ "/" ++ b

/-- shlex.join restricted to tokens free of shell metacharacters (all
flag tokens in build.py are): plain space separation. -/
def joinTokens : List String → String
  | [] => ""
  | [t] => t
  | t :: ts => t ++ " " ++ joinTokens ts

/-- INTERACTIVE_TESTS of build.py. -/
def INTERACTIVE_TESTS : List String := ["ansi"]

/-- INCLUDES of build.py. -/
def INCLUDES : List String := ["-I./include", "-I./deps/date/include", "-I./deps"]

/-- The process environment as read by build.py: one optional entry per
variable consulted via os.environ.get. CFLAGS and LDFLAGS are carried as
their shlex.split token lists. PREFIX_DIR models the variable named
PREFIX in the script. -/
structure PEnv where
  CC : Option String
  CFLAGS : List String
  LDFLAGS : List String
  PREFIX_DIR : Option String
  DESTDIR : Option String
  STRESS_CYCLES : Option String
deriving DecidableEq

/-- The ENV dict of build.py after construction. CFLAGS and LDFLAGS are
kept as token lists (build.py re-joins them with shlex.join). -/
structure BuildEnv where
  CC : String
  CFLAGS : List String
  LDFLAGS : List String
  PREFIX_DIR : String
  DESTDIR : String
  STRESS_CYCLES : String
deriving DecidableEq

/-- ENV of build.py: each key is os.environ.get(key, default), except
CFLAGS and LDFLAGS, whose process-environment tokens are followed by the
script's literal default flags. -/
def ENV (p : PEnv) : BuildEnv :=
  { CC := p.CC.getD "clang++"
    CFLAGS := p.CFLAGS ++
      (["-Wall", "-g", "-fpermissive"] ++ INCLUDES ++
        ["-DMOONLIGHT_ENABLE_STACKTRACE", "-DMOONLIGHT_STACKTRACE_IN_DESCRIPTION",
         "--std=c++2a"])
    LDFLAGS := p.LDFLAGS ++ ["-g", "-lpthread"]
    PREFIX_DIR := p.PREFIX_DIR.getD "/usr/local"
    DESTDIR := p.DESTDIR.getD ""
    STRESS_CYCLES := p.STRESS_CYCLES.getD "100" }

/-- The default flags appended to the process environment's CFLAGS
tokens by ENV. -/
def cflagsDefaults : List String :=
  ["-Wall", "-g", "-fpermissive"] ++ INCLUDES ++
    ["-DMOONLIGHT_ENABLE_STACKTRACE", "-DMOONLIGHT_STACKTRACE_IN_DESCRIPTION",
     "--std=c++2a"]

/-- The default flags appended to the process environment's LDFLAGS
tokens by ENV. -/
def ldflagsDefaults : List String := ["-g", "-lpthread"]

/-- The sh(...) invocation built by the compile recipe of build.py:
command template, substituted environment, src and target keyword
substitutions. -/
structure ShellInv where
  cmd : String
  env : BuildEnv
  src : String
  target : String
deriving DecidableEq

/-- The compile recipe of build.py. The headers parameter is declared
in the Python signature but never used in the body; it is kept here with
the same signature. The output target is src.with_suffix(""). -/
def compile (env : BuildEnv) (src : String) (headers : List String) : ShellInv :=
  { cmd := "{CC} {CFLAGS} {src} {LDFLAGS} -o {target}"
    env := env
    src := src
    target := withSuffixEmpty src }

/-- The compile recipe's sigil, from its sigil lambda
r.name ++ ":" ++ r.target.name. -/
def compileSigil (src : String) : String :=
  "compile:" ++ pathName (withSuffixEmpty src)

/-- The fully substituted compile command line. -/
def renderCompile (i : ShellInv) : String :=
  i.env.CC ++ " " ++ joinTokens i.env.CFLAGS ++ " " ++ i.src ++ " " ++
    joinTokens i.env.LDFLAGS ++ " -o " ++ i.target

/-- A compiled test recipe as the test recipe of build.py sees it: its
producer name and its target (the compiled binary path). -/
structure TestBin where
  name : String
  target : String
deriving DecidableEq

/-- The sh(...) invocation built by the test recipe of build.py: the
command is the compiled binary, and the invocation is interactive
exactly when the test's name is in INTERACTIVE_TESTS. -/
structure TestInv where
  cmd : String
  interactive : Bool
deriving DecidableEq

/-- The test recipe of build.py. -/
def test (t : TestBin) : TestInv :=
  { cmd := t.target, interactive := INTERACTIVE_TESTS.contains t.name }

/-- The sh(...) invocation built by the install recipe of build.py. The
mkdir directory comes from literal string substitution of the template
"mkdir -p {DESTDIR}{PREFIX}/bin"; the copy target comes from the Python
expression Path(DESTDIR) / PREFIX / "bin" / program.target.name. -/
structure InstallInv where
  mkdirDir : String
  program : String
  target : String
  asUser : String
deriving DecidableEq

/-- The install recipe of build.py, applied to the installed program's
path (the program recipe's target). -/
def install (env : BuildEnv) (programPath : String) : InstallInv :=
  { mkdirDir := env.DESTDIR ++ env.PREFIX_DIR ++ "/bin"
    program := programPath
    target :=
      pyPathJoin (pyPathJoin (pyPathJoin env.DESTDIR env.PREFIX_DIR) "bin")
        (pathName programPath)
    asUser := "root" }

/-- The default of the cycles parameter in the Python signature
stress_test(program, cycles: int = 10). -/
def stressTestDefaultCycles : Nat := 10

/-- One stress_test recipe invocation: the stressed program's target and
the cycle count the loop will use. -/
structure StressInv where
  programTarget : String
  cycles : Nat
deriving DecidableEq

/-- The assert_tests_stable task of build.py: stress_test(t) for each
compiled test t. stress_test is called without a cycles argument, so
every invocation carries the signature default. -/
def assert_tests_stable (ts : List ShellInv) : List StressInv :=
  ts.map (fun t => { programTarget := t.target, cycles := stressTestDefaultCycles })

/-- The body of stress_test: for x in range(cycles) awaiting sh(program)
at each x. The action is modelled by its success function (invocation
index to exit success); the result is the list of indices at which the
action was invoked, paired with the index of the failing invocation when
one aborted the loop. Failure propagation of a non-zero exit out of sh
is the engine's documented behavior (xeno is not part of this
repository). -/
def stressRun (run : Nat → Bool) : Nat → Nat → List Nat × Option Nat
  | 0, _ => ([], none)
  | n + 1, x =>
    if run x then
      let r := stressRun run n (x + 1)
      (x :: r.1, r.2)
    else
      ([x], some x)

/-- stress_test of build.py: the loop starting at x = 0. -/
def stress_test (run : Nat → Bool) (cycles : Nat) : List Nat × Option Nat :=
  stressRun run cycles 0

/-- random.sample(l, len(l)) of the Python standard library: selection
without replacement, the random source modelled as an arbitrary stream
of draws (each draw is reduced modulo the number of remaining
elements). -/
def sample {α : Type} : List α → List Nat → List α
  | [], _ => []
  | a :: l, picks =>
    let i : Nat := picks.headD 0 % (a :: l).length
    (a :: l).get ⟨i, Nat.mod_lt _ (Nat.succ_pos _)⟩ ::
      sample ((a :: l).eraseIdx i) picks.tail
termination_by l _ => l.length
decreasing_by
  simp [List.length_eraseIdx, Nat.mod_lt _ (Nat.succ_pos _)]

/-- The tests task of build.py: compile every test source, then return
random.sample(tests, len(tests)). -/
def tests_task (env : BuildEnv) (test_sources : List String)
    (headers : List String) (picks : List Nat) : List ShellInv :=
  sample (test_sources.map (fun src => compile env src headers)) picks

end Build

namespace Engine

/-- Modelled from the spec: the Test Orchestration Layer's interactive
partition (xeno's scheduler is not part of this repository). Each
invocation is assigned a concurrency slot: all batch (non-interactive)
invocations share slot 0 and may run concurrently; each interactive
invocation receives its own fresh slot, so its terminal-owning execution
overlaps no other task. -/
def scheduleSlots : List Build.TestInv → Nat → List (Build.TestInv × Nat)
  | [], _ => []
  | t :: ts, c =>
    if t.interactive then (t, c) :: scheduleSlots ts (c + 1)
    else (t, 0) :: scheduleSlots ts c

/-- Modelled from the spec: a run's schedule starts handing out
exclusive slots from 1 (slot 0 is the shared batch slot). -/
def runSchedule (ts : List Build.TestInv) : List (Build.TestInv × Nat) :=
  scheduleSlots ts 1

/-- Modelled from the spec: a resolution pass's per-run state — the
sigil-keyed cache of completed outputs and, for accounting, how many
times each producer's action has been triggered. Sigils are modelled as
natural numbers, outputs as natural numbers. -/
structure RState where
  cache : Nat → Option Nat
  count : Nat → Nat

/-- The state at the start of a run: nothing cached, no action run. -/
def initState : RState :=
  { cache := fun _ => none, count := fun _ => 0 }

mutual

/-- Modelled from the spec: Recipe.resolve of the engine. The first
caller of a sigil resolves all upstream dependencies, triggers the
action once and caches the output; subsequent callers receive the
cached output without re-triggering the action. deps gives each node's
dependency sigils, act its action (a function of the node and its
resolved dependency outputs), fuel bounds the recursion depth. -/
def resolveNode (deps : Nat → List Nat) (act : Nat → List Nat → Nat) :
    Nat → Nat → RState → Nat × RState
  | 0, _, st => (0, st)
  | fuel + 1, i, st =>
    match st.cache i with
    | some v => (v, st)
    | none =>
      let p := resolveDeps deps act fuel (deps i) st
      let v := act i p.1
      (v,
        { cache := fun k => if k = i then some v else p.2.cache k
          count := fun k => if k = i then p.2.count k + 1 else p.2.count k })
termination_by fuel i st => (fuel, 0)

/-- Modelled from the spec: resolution of a dependency list, threading
the per-run state left to right. -/
def resolveDeps (deps : Nat → List Nat) (act : Nat → List Nat → Nat) :
    Nat → List Nat → RState → List Nat × RState
  | _, [], st => ([], st)
  | fuel, j :: js, st =>
    let q := resolveNode deps act fuel j st
    let r := resolveDeps deps act fuel js q.2
    (q.1 :: r.1, r.2)
termination_by fuel js st => (fuel, js.length + 1)

end

/-- A well-formed per-run state: every action has been triggered at most
once, and a sigil with no cached output has never had its action
triggered. -/
def Good (st : RState) : Prop :=
  ∀ k, st.count k ≤ 1 ∧ (st.cache k = none → st.count k = 0)

end Engine

namespace Reg

/-- Modelled from the spec: a registration-time error — an unknown
dependency name, or a dependency cycle reported with a path containing
it. -/
inductive RegError where
  | unknownDep : String → String → RegError
  | cycle : List String → RegError
deriving DecidableEq

instance {ε α : Type} [DecidableEq ε] [DecidableEq α] : DecidableEq (Except ε α) :=
  fun a b =>
    match a, b with
    | .error e, .error f =>
      decidable_of_iff (e = f) ⟨by rintro rfl; rfl, fun h => by injection h⟩
    | .ok x, .ok y =>
      decidable_of_iff (x = y) ⟨by rintro rfl; rfl, fun h => by injection h⟩
    | .error _, .ok _ => isFalse (fun h => Except.noConfusion h)
    | .ok _, .error _ => isFalse (fun h => Except.noConfusion h)

/-- Look a producer name up in a registry (a list of producer names
paired with their declared dependency names, in declaration order). -/
def lookupReg (reg : List (String × List String)) (n : String) :
    Option (List String) :=
  (reg.find? (fun p => p.1 == n)).map (fun p => p.2)

/-- Modelled from the spec: the Registry's registration-time validation
of one name (xeno's registry is not part of this repository) —
depth-first traversal with a visiting marker; a name revisited while
still marked visiting is a cycle; a name that is neither a registered
producer nor a configuration-environment key is an unknown dependency.
Returns the enlarged done set; the fuel bounds the traversal depth and
exceeds the longest acyclic path whenever it exceeds the number of
registered names. -/
def dfsNode (reg : List (String × List String)) (ekeys : List String) :
    Nat → List String → List String → String → Except RegError (List String)
  | 0, visiting, _, _ => .error (.cycle visiting)
  | fuel + 1, visiting, done, n =>
    if done.contains n then .ok done
    else if visiting.contains n then .error (.cycle (visiting ++ [n]))
    else
      match lookupReg reg n with
      | none =>
        if ekeys.contains n then .ok done
        else .error (.unknownDep (visiting.getLastD "") n)
      | some ds =>
        match ds.foldl
            (fun (acc : Except RegError (List String)) d =>
              match acc with
              | .error e => .error e
              | .ok done2 => dfsNode reg ekeys fuel (visiting ++ [n]) done2 d)
            (Except.ok done) with
        | .error e => .error e
        | .ok done2 => .ok (n :: done2)

/-- Modelled from the spec: full-graph validation — every registered
producer is traversed; the first unknown dependency or cycle is the
registration error. -/
def checkRegistry (ekeys : List String) (reg : List (String × List String)) :
    Except RegError Unit :=
  match reg.foldl
      (fun (acc : Except RegError (List String)) p =>
        match acc with
        | .error e => .error e
        | .ok done => dfsNode reg ekeys (reg.length + 1) [] done p.1)
      (Except.ok []) with
  | .error e => .error e
  | .ok _ => .ok ()

/-- Modelled from the spec: a run first validates the registry and only
then executes producers; on a registration error nothing is executed. -/
def runBuild {α : Type} (ekeys : List String)
    (reg : List (String × List String))
    (exec : List (String × List String) → α) : Except RegError α :=
  match checkRegistry ekeys reg with
  | .error e => .error e
  | .ok _ => .ok (exec reg)

/-- The keys of the shared configuration environment ENV of build.py. -/
def envKeys : List String :=
  ["CC", "CFLAGS", "LDFLAGS", "PREFIX", "DESTDIR", "STRESS_CYCLES"]

/-- The name-injected producers declared in build.py (the provide and
task decorators), each with the dependency names derived from its
parameter list, in declaration order. Recipe factories (compile, test,
install, stress_test) receive their arguments explicitly at their call
sites and are not nodes of the name-resolved graph. -/
def buildRegistry : List (String × List String) :=
  [("submodules", []),
   ("test_sources", []),
   ("lab_sources", []),
   ("util_sources", []),
   ("headers", []),
   ("labs", ["lab_sources", "headers", "submodules"]),
   ("tests", ["test_sources", "headers", "submodules"]),
   ("utils", ["util_sources", "headers", "submodules"]),
   ("install_utils", ["utils"]),
   ("run_tests", ["tests"]),
   ("assert_tests_stable", ["tests"]),
   ("all", ["tests", "labs", "utils"]),
   ("cc_json", [])]

/-- The producers declared in bake.py with their parameter-derived
dependency names. -/
def bakeRegistry : List (String × List String) :=
  [("submodules", []),
   ("sources", ["submodules"]),
   ("tests", ["sources"]),
   ("run_tests", ["tests"]),
   ("run_tests_async", ["tests"])]

/-- The producers declared in Bakefile.py with their parameter-derived
dependency names. -/
def bakefileRegistry : List (String × List String) :=
  [("temp", []),
   ("test_sources", []),
   ("tests", ["test_sources"]),
   ("run_tests", ["temp", "tests"])]

/-- A rank witness for the acyclicity of buildRegistry: every declared
producer-to-producer dependency strictly decreases it. -/
def buildRank (n : String) : Nat :=
  if n == "labs" || n == "tests" || n == "utils" then 1
  else if n == "install_utils" || n == "run_tests" ||
      n == "assert_tests_stable" || n == "all" then 2
  else 0

/-- A rank witness for the acyclicity of bakeRegistry. -/
def bakeRank (n : String) : Nat :=
  if n == "sources" then 1
  else if n == "tests" then 2
  else if n == "run_tests" || n == "run_tests_async" then 3
  else 0

/-- A rank witness for the acyclicity of bakefileRegistry. -/
def bakefileRank (n : String) : Nat :=
  if n == "tests" then 1
  else if n == "run_tests" then 2
  else 0

/-- A registry with a dependency cycle, for exercising the checker. -/
def cycReg : List (String × List String) :=
  [("a", ["b"]), ("b", ["a"])]

end Reg

namespace Engine

/-- A diamond dependency graph for exercising the resolver: node 3
depends on nodes 1 and 2, each of which depends on the shared node 0. -/
def diamondDeps : Nat → List Nat
  | 1 => [0]
  | 2 => [0]
  | 3 => [1, 2]
  | _ => []

end Engine

namespace Bake

/-- The sh(...) invocation built by compile_test of bake.py. -/
structure BakeShellInv where
  cmd : String
  inp : String
  output : String
deriving DecidableEq

/-- compile_test of bake.py: output is Path(src).with_suffix(""). -/
def compile_test (src : String) : BakeShellInv :=
  { cmd := "{CC} {CFLAGS} {input} {LDFLAGS} -o {output}"
    inp := src
    output := Build.withSuffixEmpty src }

end Bake


theorem stressRun_all_ok (run : Nat → Bool) (h : ∀ x, run x = true) :
    ∀ (n x : Nat), Build.stressRun run n x = (List.range' x n, none) := by
  intro n
  induction n with
  | zero => intro x; rfl
  | succ n ih => intro x; simp [Build.stressRun, h x, ih (x + 1), List.range']

/-- Claim C2: stress mode over an action failing deterministically on
its 3rd invocation aborts at the first failure, invokes the action at
exactly the iteration indices 0, 1, 2 (three invocations, not N), and
reports the 0-based failing index 2; over an action that never fails it
performs all N invocations (indices 0 .. N-1, in order) and reports
success. -/
theorem claim_C2 :
    (∀ (run : Nat → Bool) (N : Nat), run 0 = true → run 1 = true → run 2 = false →
      3 ≤ N → Build.stress_test run N = ([0, 1, 2], some 2)) ∧
    (∀ (run : Nat → Bool) (N : Nat), (∀ x, run x = true) →
      Build.stress_test run N = (List.range N, none)) := by
  constructor
  · intro run N h0 h1 h2 hN
    have e0 : ∀ fuel, Build.stressRun run (fuel + 3) 0 = ([0, 1, 2], some 2) := by
      intro fuel; simp [Build.stressRun, h0, h1, h2]
    obtain ⟨m, rfl⟩ : ∃ m, N = m + 3 := ⟨N - 3, by omega⟩
    simpa [Build.stress_test] using e0 m
  · intro run N h
    simp [Build.stress_test, stressRun_all_ok run h N 0, List.range_eq_range']

/-- Witness for claim C2 at concrete inputs: an action failing exactly
at index 2 under cycle count 10, and an always-succeeding action under
cycle count 4. -/
theorem claim_C2_witness :
    Build.stress_test (fun x => decide (x ≠ 2)) 10 = ([0, 1, 2], some 2) ∧
    Build.stress_test (fun _ => true) 4 = (List.range 4, none) :=
  ⟨claim_C2.1 _ 10 (by decide) (by decide) (by decide) (by decide),
   claim_C2.2 _ 4 (fun _ => rfl)⟩

/-- Claim C3 evidence (code bug): with STRESS_CYCLES set to "5" in the
process environment, ENV carries "5", yet the assert_tests_stable task
invokes stress_test without a cycles argument, so every stress
invocation runs the hard-coded signature default of 10 cycles — the
environment variable never reaches the loop. -/
theorem claim_C3 :
    (Build.ENV ⟨none, [], [], none, none, some "5"⟩).STRESS_CYCLES = "5" ∧
    Build.assert_tests_stable
        [Build.compile (Build.ENV ⟨none, [], [], none, none, some "5"⟩) "test/a.cpp" []]
      = [⟨"test/a", 10⟩] ∧
    Build.stressTestDefaultCycles = 10 ∧ (10 : Nat) ≠ 5 := by
  refine ⟨by decide, by decide, by decide, by decide⟩

/-- Claim C6: ENV merges the append-style keys CFLAGS and LDFLAGS by
concatenation — every process-environment token is kept, followed by
the engine defaults — while CC, PREFIX and DESTDIR are replaced: the
process-environment value when present, the built-in default
otherwise. -/
theorem claim_C6 (p : Build.PEnv) :
    (Build.ENV p).CFLAGS = p.CFLAGS ++ Build.cflagsDefaults ∧
    (Build.ENV p).LDFLAGS = p.LDFLAGS ++ Build.ldflagsDefaults ∧
    (∀ t ∈ p.CFLAGS, t ∈ (Build.ENV p).CFLAGS) ∧
    (∀ t ∈ p.LDFLAGS, t ∈ (Build.ENV p).LDFLAGS) ∧
    (∀ v, p.CC = some v → (Build.ENV p).CC = v) ∧
    (p.CC = none → (Build.ENV p).CC = "clang++") ∧
    (∀ v, p.PREFIX_DIR = some v → (Build.ENV p).PREFIX_DIR = v) ∧
    (p.PREFIX_DIR = none → (Build.ENV p).PREFIX_DIR = "/usr/local") ∧
    (∀ v, p.DESTDIR = some v → (Build.ENV p).DESTDIR = v) ∧
    (p.DESTDIR = none → (Build.ENV p).DESTDIR = "") := by
  refine ⟨rfl, rfl, ?_, ?_, ?_, ?_, ?_, ?_, ?_, ?_⟩
  · intro t ht; exact List.mem_append.mpr (Or.inl ht)
  · intro t ht; exact List.mem_append.mpr (Or.inl ht)
  · intro v hv; simp [Build.ENV, hv]
  · intro hv; simp [Build.ENV, hv]
  · intro v hv; simp [Build.ENV, hv]
  · intro hv; simp [Build.ENV, hv]
  · intro v hv; simp [Build.ENV, hv]
  · intro hv; simp [Build.ENV, hv]

/-- Witness for claim C6 at two concrete process environments: one
setting every variable, one setting none. -/
theorem claim_C6_witness :
    (Build.ENV ⟨some "g++", ["-O2"], ["-L/x"], some "/opt", some "/d", none⟩).CC = "g++" ∧
    "-O2" ∈ (Build.ENV ⟨some "g++", ["-O2"], ["-L/x"], some "/opt", some "/d", none⟩).CFLAGS ∧
    (Build.ENV ⟨some "g++", ["-O2"], ["-L/x"], some "/opt", some "/d", none⟩).PREFIX_DIR = "/opt" ∧
    (Build.ENV ⟨some "g++", ["-O2"], ["-L/x"], some "/opt", some "/d", none⟩).DESTDIR = "/d" ∧
    (Build.ENV ⟨none, [], [], none, none, none⟩).CC = "clang++" ∧
    (Build.ENV ⟨none, [], [], none, none, none⟩).PREFIX_DIR = "/usr/local" ∧
    (Build.ENV ⟨none, [], [], none, none, none⟩).DESTDIR = "" :=
  ⟨(claim_C6 _).2.2.2.2.1 "g++" rfl,
   (claim_C6 _).2.2.1 "-O2" (by decide),
   (claim_C6 _).2.2.2.2.2.2.1 "/opt" rfl,
   (claim_C6 _).2.2.2.2.2.2.2.2.1 "/d" rfl,
   (claim_C6 _).2.2.2.2.2.1 rfl,
   (claim_C6 _).2.2.2.2.2.2.2.1 rfl,
   (claim_C6 _).2.2.2.2.2.2.2.2.2 rfl⟩

/-- Claim C7 evidence (code bug): with DESTDIR=/dest and the default
PREFIX=/usr/local, the install recipe's mkdir creates
/dest/usr/local/bin (literal {DESTDIR}{PREFIX}/bin substitution), but
the copy destination is Path(DESTDIR) / PREFIX / "bin" / name =
/usr/local/bin/foo — pathlib discards DESTDIR when joining the absolute
PREFIX — so the copy does not land under the destination root and does
not match the directory just created. -/
theorem claim_C7 :
    (Build.install (Build.ENV ⟨none, [], [], none, some "/dest", none⟩) "utils/foo").mkdirDir
      = "/dest/usr/local/bin" ∧
    (Build.install (Build.ENV ⟨none, [], [], none, some "/dest", none⟩) "utils/foo").target
      = "/usr/local/bin/foo" ∧
    (Build.install (Build.ENV ⟨none, [], [], none, some "/dest", none⟩) "utils/foo").target
      ≠ "/dest/usr/local/bin/foo" := by
  refine ⟨by decide, by decide, by decide⟩

/-- Claim C8: the compile output path is a function of the source path
alone — it is the source path with its final extension removed,
whatever the headers argument and environment are; bake.py's
compile_test computes the same output path; on the concrete source
test/ansi.cpp the output path is test/ansi. -/
theorem claim_C8 :
    (∀ (env : Build.BuildEnv) (src : String) (hs : List String),
      (Build.compile env src hs).target = Build.withSuffixEmpty src) ∧
    (∀ (env1 env2 : Build.BuildEnv) (src : String) (hs1 hs2 : List String),
      (Build.compile env1 src hs1).target = (Build.compile env2 src hs2).target) ∧
    (∀ src : String, (Bake.compile_test src).output = Build.withSuffixEmpty src) ∧
    Build.withSuffixEmpty "test/ansi.cpp" = "test/ansi" :=
  ⟨fun _ _ _ => rfl, fun _ _ _ _ _ => rfl, fun _ => rfl, by decide⟩

/-- Claim C10: the headers argument of the compile recipe has no
influence — compile(src, h1) and compile(src, h2) build the identical
sh invocation (same record, same rendered command line, same output
target). -/
theorem claim_C10 :
    ∀ (env : Build.BuildEnv) (src : String) (h1 h2 : List String),
      Build.compile env src h1 = Build.compile env src h2 ∧
      Build.renderCompile (Build.compile env src h1)
        = Build.renderCompile (Build.compile env src h2) ∧
      (Build.compile env src h1).target = (Build.compile env src h2).target :=
  fun _ _ _ _ => ⟨rfl, rfl, rfl⟩

theorem cons_eraseIdx_perm {α : Type} (l : List α) (i : Nat) (h : i < l.length) :
    (l.get ⟨i, h⟩ :: l.eraseIdx i).Perm l := by
  have h2 : l.take i ++ l[i] :: l.drop (i + 1) = l := by
    rw [List.getElem_cons_drop, List.take_append_drop]
  have p1 : (l[i] :: (l.take i ++ l.drop (i + 1))).Perm
      (l.take i ++ l[i] :: l.drop (i + 1)) := List.perm_middle.symm
  rw [h2] at p1
  rw [List.eraseIdx_eq_take_drop_succ, List.get_eq_getElem]
  exact p1

theorem sample_perm {α : Type} (l : List α) (picks : List Nat) :
    (Build.sample l picks).Perm l := by
  match l with
  | [] => simp [Build.sample]
  | a :: t =>
    rw [Build.sample]
    exact ((sample_perm ((a :: t).eraseIdx (picks.headD 0 % (a :: t).length))
        picks.tail).cons _).trans (cons_eraseIdx_perm _ _ _)
termination_by l.length
decreasing_by simp [List.length_eraseIdx, Nat.mod_lt _ (Nat.succ_pos _)]

/-- Claim C5: the tests task returns a permutation of the compiled test
Recipes: whatever draws the random source produces, the shuffled list
has the same length as the input and contains every element of the
input with the same multiplicity — only the order differs. -/
theorem claim_C5 (env : Build.BuildEnv) (srcs hs : List String) (picks : List Nat) :
    (Build.tests_task env srcs hs picks).Perm
      (srcs.map (fun s => Build.compile env s hs)) ∧
    (Build.tests_task env srcs hs picks).length = srcs.length ∧
    ∀ x, (Build.tests_task env srcs hs picks).count x
      = (srcs.map (fun s => Build.compile env s hs)).count x := by
  have hp := sample_perm (srcs.map (fun s => Build.compile env s hs)) picks
  exact ⟨hp, by simpa using hp.length_eq, fun x => hp.count_eq x⟩

theorem scheduleSlots_cons_int (t : Build.TestInv) (ts : List Build.TestInv)
    (c : Nat) (hi : t.interactive = true) :
    Engine.scheduleSlots (t :: ts) c = (t, c) :: Engine.scheduleSlots ts (c + 1) := by
  simp [Engine.scheduleSlots, hi]

theorem scheduleSlots_cons_batch (t : Build.TestInv) (ts : List Build.TestInv)
    (c : Nat) (hi : t.interactive = false) :
    Engine.scheduleSlots (t :: ts) c = (t, 0) :: Engine.scheduleSlots ts c := by
  simp [Engine.scheduleSlots, hi]

theorem scheduleSlots_mem (ts : List Build.TestInv) (c : Nat) :
    ∀ e ∈ Engine.scheduleSlots ts c,
      (e.1.interactive = true → c ≤ e.2) ∧ (e.1.interactive = false → e.2 = 0) := by
  induction ts generalizing c with
  | nil => intro e he; simp [Engine.scheduleSlots] at he
  | cons t ts ih =>
    intro e he
    cases hi : t.interactive with
    | true =>
      rw [scheduleSlots_cons_int t ts c hi] at he
      rcases List.mem_cons.mp he with rfl | he2
      · exact ⟨fun _ => Nat.le_refl c, fun hf => by rw [hi] at hf; cases hf⟩
      · rcases ih (c + 1) e he2 with ⟨ha, hb⟩
        exact ⟨fun h => Nat.le_trans (Nat.le_succ c) (ha h), hb⟩
    | false =>
      rw [scheduleSlots_cons_batch t ts c hi] at he
      rcases List.mem_cons.mp he with rfl | he2
      · exact ⟨fun h => (by rw [hi] at h; cases h), fun _ => rfl⟩
      · exact ih c e he2

theorem scheduleSlots_pairwise (ts : List Build.TestInv) :
    ∀ c, 1 ≤ c →
      (Engine.scheduleSlots ts c).Pairwise
        (fun a b => (a.1.interactive = true ∨ b.1.interactive = true) → a.2 ≠ b.2) := by
  induction ts with
  | nil => intro c _; simp [Engine.scheduleSlots]
  | cons t ts ih =>
    intro c hc
    cases hi : t.interactive with
    | true =>
      rw [scheduleSlots_cons_int t ts c hi]
      refine List.Pairwise.cons ?_ (ih (c + 1) (by omega))
      intro b hb _
      rcases scheduleSlots_mem ts (c + 1) b hb with ⟨hb1, hb2⟩
      show c ≠ b.2
      cases hbi : b.1.interactive with
      | true => have := hb1 hbi; omega
      | false => have := hb2 hbi; omega
    | false =>
      rw [scheduleSlots_cons_batch t ts c hi]
      refine List.Pairwise.cons ?_ (ih c hc)
      intro b hb hor
      show (0 : Nat) ≠ b.2
      rcases hor with h | h
      · rw [show ((t, 0) : Build.TestInv × Nat).1 = t from rfl, hi] at h; cases h
      · have := (scheduleSlots_mem ts c b hb).1 h; omega

/-- Claim C4: the test recipe marks its shell invocation interactive
exactly when the test's name is in INTERACTIVE_TESTS (here the set
containing only ansi); and in the modelled schedule an interactive
invocation's concurrency slot differs from every other invocation's
slot, so its terminal-owning execution overlaps no other task. -/
theorem claim_C4 :
    (∀ t : Build.TestBin,
      (Build.test t).interactive = true ↔ t.name ∈ Build.INTERACTIVE_TESTS) ∧
    (∀ (ts : List Build.TestInv) (i j : Nat)
      (hi : i < (Engine.runSchedule ts).length)
      (hj : j < (Engine.runSchedule ts).length),
      i ≠ j →
      ((Engine.runSchedule ts).getD i (⟨"", false⟩, 0)).1.interactive = true →
      ((Engine.runSchedule ts).getD i (⟨"", false⟩, 0)).2
        ≠ ((Engine.runSchedule ts).getD j (⟨"", false⟩, 0)).2) := by
  constructor
  · intro t
    simp [Build.test]
  · intro ts i j hi hj hne hint
    have hp := scheduleSlots_pairwise ts 1 (Nat.le_refl 1)
    rw [List.pairwise_iff_getElem] at hp
    simp only [Engine.runSchedule] at hi hj hint ⊢
    rw [List.getD_eq_getElem _ _ hi] at hint ⊢
    rw [List.getD_eq_getElem _ _ hj]
    rcases Nat.lt_or_ge i j with hlt | hge
    · exact hp i j hi hj hlt (Or.inl hint)
    · have hlt : j < i := by omega
      exact (hp j i hj hi hlt (Or.inr hint)).symm

/-- Witness for claim C4: the interactive test ansi and the batch test
parsing scheduled together occupy different slots. -/
theorem claim_C4_witness :
    ((Build.test ⟨"ansi", "test/ansi"⟩).interactive = true) ∧
    ((Engine.runSchedule [Build.test ⟨"ansi", "test/ansi"⟩,
        Build.test ⟨"parsing", "test/parsing"⟩]).getD 0 (⟨"", false⟩, 0)).2
      ≠ ((Engine.runSchedule [Build.test ⟨"ansi", "test/ansi"⟩,
        Build.test ⟨"parsing", "test/parsing"⟩]).getD 1 (⟨"", false⟩, 0)).2 :=
  ⟨(claim_C4.1 ⟨"ansi", "test/ansi"⟩).mpr (by decide),
   claim_C4.2 _ 0 1 (by decide) (by decide) (by decide) (by decide)⟩

theorem resolveNode_hit (deps : Nat → List Nat) (act : Nat → List Nat → Nat)
    (fuel i : Nat) (st : Engine.RState) (v : Nat) (hc : st.cache i = some v) :
    Engine.resolveNode deps act (fuel + 1) i st = (v, st) := by
  simp [Engine.resolveNode, hc]

theorem resolveNode_miss (deps : Nat → List Nat) (act : Nat → List Nat → Nat)
    (fuel i : Nat) (st : Engine.RState) (hc : st.cache i = none) :
    Engine.resolveNode deps act (fuel + 1) i st =
      (act i (Engine.resolveDeps deps act fuel (deps i) st).1,
        { cache := fun k =>
            if k = i then some (act i (Engine.resolveDeps deps act fuel (deps i) st).1)
            else (Engine.resolveDeps deps act fuel (deps i) st).2.cache k
          count := fun k =>
            if k = i then (Engine.resolveDeps deps act fuel (deps i) st).2.count k + 1
            else (Engine.resolveDeps deps act fuel (deps i) st).2.count k }) := by
  simp [Engine.resolveNode, hc]

theorem resolveDeps_cons (deps : Nat → List Nat) (act : Nat → List Nat → Nat)
    (fuel j : Nat) (js : List Nat) (st : Engine.RState) :
    Engine.resolveDeps deps act fuel (j :: js) st
      = ((Engine.resolveNode deps act fuel j st).1
          :: (Engine.resolveDeps deps act fuel js (Engine.resolveNode deps act fuel j st).2).1,
         (Engine.resolveDeps deps act fuel js (Engine.resolveNode deps act fuel j st).2).2) := by
  simp [Engine.resolveDeps]

theorem resolveDeps_preserve_of (deps : Nat → List Nat) (act : Nat → List Nat → Nat)
    (fuel : Nat)
    (hnode : ∀ (i : Nat) (st : Engine.RState) (k : Nat), i < k →
      (Engine.resolveNode deps act fuel i st).2.cache k = st.cache k ∧
      (Engine.resolveNode deps act fuel i st).2.count k = st.count k) :
    ∀ (js : List Nat) (st : Engine.RState) (k : Nat), (∀ j ∈ js, j < k) →
      (Engine.resolveDeps deps act fuel js st).2.cache k = st.cache k ∧
      (Engine.resolveDeps deps act fuel js st).2.count k = st.count k := by
  intro js
  induction js with
  | nil => intro st k _; simp [Engine.resolveDeps]
  | cons j js ih =>
    intro st k hk
    have h1 := hnode j st k (hk j (List.mem_cons_self j js))
    have h2 := ih (Engine.resolveNode deps act fuel j st).2 k
      (fun x hx => hk x (List.mem_cons_of_mem j hx))
    rw [resolveDeps_cons]
    exact ⟨h2.1.trans h1.1, h2.2.trans h1.2⟩

theorem resolveNode_preserve (deps : Nat → List Nat) (act : Nat → List Nat → Nat)
    (hA : ∀ i j, j ∈ deps i → j < i) :
    ∀ (fuel i : Nat) (st : Engine.RState) (k : Nat), i < k →
      (Engine.resolveNode deps act fuel i st).2.cache k = st.cache k ∧
      (Engine.resolveNode deps act fuel i st).2.count k = st.count k := by
  intro fuel
  induction fuel with
  | zero => intro i st k _; simp [Engine.resolveNode]
  | succ fuel ih =>
    intro i st k hik
    cases hc : st.cache i with
    | some v => rw [resolveNode_hit deps act fuel i st v hc]; exact ⟨rfl, rfl⟩
    | none =>
      have hd := resolveDeps_preserve_of deps act fuel ih (deps i) st k
        (fun j hj => Nat.lt_trans (hA i j hj) hik)
      rw [resolveNode_miss deps act fuel i st hc]
      have hki : ¬(k = i) := by omega
      simp only [hki, if_false]
      exact hd

theorem resolveDeps_good_of (deps : Nat → List Nat) (act : Nat → List Nat → Nat)
    (fuel : Nat)
    (hnode : ∀ (i : Nat) (st : Engine.RState), Engine.Good st →
      Engine.Good (Engine.resolveNode deps act fuel i st).2) :
    ∀ (js : List Nat) (st : Engine.RState), Engine.Good st →
      Engine.Good (Engine.resolveDeps deps act fuel js st).2 := by
  intro js
  induction js with
  | nil => intro st h; simpa [Engine.resolveDeps] using h
  | cons j js ih =>
    intro st h
    rw [resolveDeps_cons]
    exact ih (Engine.resolveNode deps act fuel j st).2 (hnode j st h)

theorem resolveNode_good (deps : Nat → List Nat) (act : Nat → List Nat → Nat)
    (hA : ∀ i j, j ∈ deps i → j < i) :
    ∀ (fuel i : Nat) (st : Engine.RState), Engine.Good st →
      Engine.Good (Engine.resolveNode deps act fuel i st).2 := by
  intro fuel
  induction fuel with
  | zero => intro i st h; simpa [Engine.resolveNode] using h
  | succ fuel ih =>
    intro i st h
    cases hc : st.cache i with
    | some v => rw [resolveNode_hit deps act fuel i st v hc]; exact h
    | none =>
      have hgd := resolveDeps_good_of deps act fuel ih (deps i) st h
      have hpres := resolveDeps_preserve_of deps act fuel
        (fun i2 st2 k2 hk2 => resolveNode_preserve deps act hA fuel i2 st2 k2 hk2)
        (deps i) st i (fun j hj => hA i j hj)
      have hcount0 : (Engine.resolveDeps deps act fuel (deps i) st).2.count i = 0 := by
        rw [hpres.2]
        exact (h i).2 hc
      rw [resolveNode_miss deps act fuel i st hc]
      intro k
      by_cases hk : k = i
      · subst hk
        constructor
        · simp [hcount0]
        · intro hnone; simp at hnone
      · constructor
        · simp only [hk, if_false]
          exact (hgd k).1
        · intro hnone
          simp only [hk, if_false] at hnone ⊢
          exact (hgd k).2 hnone

theorem resolveNode_complete (deps : Nat → List Nat) (act : Nat → List Nat → Nat)
    (fuel i : Nat) (st : Engine.RState) (hf : 0 < fuel) :
    (Engine.resolveNode deps act fuel i st).2.cache i
      = some (Engine.resolveNode deps act fuel i st).1 := by
  match fuel, hf with
  | fuel + 1, _ =>
    cases hc : st.cache i with
    | some v => rw [resolveNode_hit deps act fuel i st v hc]; exact hc
    | none => rw [resolveNode_miss deps act fuel i st hc]; simp

theorem resolveNode_cached (deps : Nat → List Nat) (act : Nat → List Nat → Nat)
    (fuel i : Nat) (st : Engine.RState) (v : Nat) (hf : 0 < fuel)
    (hc : st.cache i = some v) :
    Engine.resolveNode deps act fuel i st = (v, st) := by
  match fuel, hf with
  | fuel + 1, _ => exact resolveNode_hit deps act fuel i st v hc

theorem diamondDeps_dec : ∀ i j, j ∈ Engine.diamondDeps i → j < i := by
  intro i j hj
  match i with
  | 0 => simp [Engine.diamondDeps] at hj
  | 1 => simp [Engine.diamondDeps] at hj; omega
  | 2 => simp [Engine.diamondDeps] at hj; omega
  | 3 => simp [Engine.diamondDeps] at hj; rcases hj with rfl | rfl <;> omega
  | n + 4 => simp [Engine.diamondDeps] at hj

/-- Claim C1: over any acyclic producer graph (dependency sigils
strictly below the dependent's sigil), resolving a target from the
initial per-run state triggers every producer's action at most once,
however many producers share a dependency; and a second resolve of the
same sigil returns exactly the first resolve's cached output with the
state unchanged — equal sigils are the same instance and the underlying
action is not re-run. -/
theorem claim_C1 (deps : Nat → List Nat) (act : Nat → List Nat → Nat)
    (hA : ∀ i j, j ∈ deps i → j < i) (i fuel : Nat) (hf : 0 < fuel) :
    (∀ k, (Engine.resolveNode deps act fuel i Engine.initState).2.count k ≤ 1) ∧
    Engine.resolveNode deps act fuel i
        ((Engine.resolveNode deps act fuel i Engine.initState).2)
      = ((Engine.resolveNode deps act fuel i Engine.initState).1,
         (Engine.resolveNode deps act fuel i Engine.initState).2) := by
  have hg0 : Engine.Good Engine.initState :=
    fun k => ⟨by simp [Engine.initState], fun _ => rfl⟩
  have hg := resolveNode_good deps act hA fuel i Engine.initState hg0
  refine ⟨fun k => (hg k).1, ?_⟩
  exact resolveNode_cached deps act fuel i _ _ hf
    (resolveNode_complete deps act fuel i _ hf)

/-- Witness for claim C1 on the diamond graph (3 depends on 1 and 2,
both of which depend on the shared node 0): the shared node's action
runs at most once, and re-resolving the target returns the cached
output with no state change. -/
theorem claim_C1_witness :
    (Engine.resolveNode Engine.diamondDeps
        (fun i vs => i + vs.foldl (fun a b => a + b) 0) 4 3 Engine.initState).2.count 0 ≤ 1 ∧
    Engine.resolveNode Engine.diamondDeps (fun i vs => i + vs.foldl (fun a b => a + b) 0) 4 3
        ((Engine.resolveNode Engine.diamondDeps
          (fun i vs => i + vs.foldl (fun a b => a + b) 0) 4 3 Engine.initState).2)
      = ((Engine.resolveNode Engine.diamondDeps
            (fun i vs => i + vs.foldl (fun a b => a + b) 0) 4 3 Engine.initState).1,
         (Engine.resolveNode Engine.diamondDeps
            (fun i vs => i + vs.foldl (fun a b => a + b) 0) 4 3 Engine.initState).2) :=
  ⟨(claim_C1 Engine.diamondDeps _ diamondDeps_dec 3 4 (by decide)).1 0,
   (claim_C1 Engine.diamondDeps _ diamondDeps_dec 3 4 (by decide)).2⟩

/-- Claim C9: in the build scripts (build.py, bake.py, Bakefile.py),
every dependency name derived from a provide/task producer's parameter
list resolves to another registered producer or to a key of the shared
configuration environment; each concrete dependency graph is acyclic
(witnessed by a rank that every producer-to-producer edge strictly
decreases, and accepted by the modelled registration-time checker); and
in the modelled engine a registry failing validation yields the
registration error with nothing executed — as the cyclic two-node
registry illustrates. -/
theorem claim_C9 :
    (∀ p ∈ Reg.buildRegistry, ∀ d ∈ p.2,
      (Reg.buildRegistry.any (fun q => q.1 == d) || Reg.envKeys.contains d) = true) ∧
    (∀ p ∈ Reg.bakeRegistry, ∀ d ∈ p.2,
      (Reg.bakeRegistry.any (fun q => q.1 == d) || Reg.envKeys.contains d) = true) ∧
    (∀ p ∈ Reg.bakefileRegistry, ∀ d ∈ p.2,
      (Reg.bakefileRegistry.any (fun q => q.1 == d) || Reg.envKeys.contains d) = true) ∧
    (∀ p ∈ Reg.buildRegistry, ∀ d ∈ p.2, Reg.buildRank d < Reg.buildRank p.1) ∧
    (∀ p ∈ Reg.bakeRegistry, ∀ d ∈ p.2, Reg.bakeRank d < Reg.bakeRank p.1) ∧
    (∀ p ∈ Reg.bakefileRegistry, ∀ d ∈ p.2, Reg.bakefileRank d < Reg.bakefileRank p.1) ∧
    Reg.checkRegistry Reg.envKeys Reg.buildRegistry = .ok () ∧
    Reg.checkRegistry Reg.envKeys Reg.bakeRegistry = .ok () ∧
    Reg.checkRegistry Reg.envKeys Reg.bakefileRegistry = .ok () ∧
    (∀ (exec : List (String × List String) → List String)
      (reg : List (String × List String)) (e : Reg.RegError),
      Reg.checkRegistry Reg.envKeys reg = .error e →
      Reg.runBuild Reg.envKeys reg exec = .error e) ∧
    Reg.checkRegistry Reg.envKeys Reg.cycReg = .error (.cycle ["a", "b", "a"]) := by
  refine ⟨by decide, by decide, by decide, by decide, by decide, by decide,
    by decide, by decide, by decide, ?_, by decide⟩
  intro exec reg e h
  simp [Reg.runBuild, h]

/-- Witness for claim C9: running the cyclic registry reports the cycle
as a registration error and executes nothing. -/
theorem claim_C9_witness :
    Reg.runBuild Reg.envKeys Reg.cycReg (fun r => r.map (fun p => p.1))
      = .error (.cycle ["a", "b", "a"]) :=
  claim_C9.2.2.2.2.2.2.2.2.2.1 (fun r => r.map (fun p => p.1)) Reg.cycReg
    (Reg.RegError.cycle ["a", "b", "a"]) (by decide)
